import Mathlib

/-!
Shallow embedding of the modern-table derived-view pipeline: filtering,
sorting, pagination, virtualization windowing, selection, frozen-column
offset geometry, computed columns and color resolution, translated from the
TypeScript sources (`features/*.feature.ts`, column/pagination/virtual-scroll
utilities and `table.ts`).
-/

namespace ModernTable

/-- Model of the JavaScript values stored in row fields and filter entries:
strings, (integer) numbers, booleans, `null`, `undefined` and arrays. -/
inductive JsValue where
  | vStr (s : String)
  | vNum (n : Int)
  | vBool (b : Bool)
  | vNull
  | vUndefined
  | vArr (elems : List JsValue)

mutual

/-- Structural boolean equality on modelled JS values (used for JS `Set`/`Map`
key identity, which is value identity for the primitive keys in play). -/
def jsBeq : JsValue → JsValue → Bool
  | .vStr a, .vStr b => a = b
  | .vNum a, .vNum b => a = b
  | .vBool a, .vBool b => a = b
  | .vNull, .vNull => true
  | .vUndefined, .vUndefined => true
  | .vArr a, .vArr b => jsBeqList a b
  | _, _ => false

/-- Element-wise equality for array values. -/
def jsBeqList : List JsValue → List JsValue → Bool
  | [], [] => true
  | a :: as, b :: bs => jsBeq a b && jsBeqList as bs
  | _, _ => false

end

instance : BEq JsValue := ⟨jsBeq⟩

/-- A row is a record of named fields (`Record<string, any>`). -/
def Row : Type := List (String × JsValue)

/-- JS property access `row[key]`: a missing field reads as `undefined`. -/
def getField (row : Row) (key : String) : JsValue :=
  match row.find? (fun p => p.1 = key) with
  | some p => p.2
  | none => .vUndefined

mutual

/-- `String(v)` coercion for the modelled values (array elements that are
`null`/`undefined` print as the empty string, per JS `Array.prototype.toString`). -/
def jsToString : JsValue → String
  | .vStr s => s
  | .vNum n => toString n
  | .vBool b => if b then "true" else "false"
  | .vNull => "null"
  | .vUndefined => "undefined"
  | .vArr l => String.intercalate "," (jsToStringList l)

/-- Element-wise stringification used by `String(array)`. -/
def jsToStringList : List JsValue → List String
  | [] => []
  | v :: vs =>
    (match v with
     | .vNull => ""
     | .vUndefined => ""
     | v => jsToString v) :: jsToStringList vs

end

/-- `toLowerCase()` (ASCII case folding), over the character list so the
kernel can evaluate it. -/
def jsToLower (s : String) : String := String.mk (s.toList.map Char.toLower)

/-- The whitespace characters `String.prototype.trim` strips (the ones that
occur in the modelled data). -/
def isWsChar (c : Char) : Bool := c = ' ' || c = '\t' || c = '\n' || c = '\r'

/-- `trim()` on a character list. -/
def trimChars (l : List Char) : List Char :=
  ((l.dropWhile isWsChar).reverse.dropWhile isWsChar).reverse

/-- Parse an unsigned decimal digit string (`none` when empty or non-digit). -/
def digitsToNat : List Char → Option Nat
  | [] => none
  | l => if l.all Char.isDigit then some (l.foldl (fun a c => a * 10 + (c.toNat - 48)) 0)
         else none

/-- Whether the character list starting here begins with the first list. -/
def charsPre : List Char → List Char → Bool
  | [], _ => true
  | _ :: _, [] => false
  | c :: cs, h :: hs => (c = h : Bool) && charsPre cs hs

/-- Substring containment on character lists (`hay` then `needle`). -/
def charsContains : List Char → List Char → Bool
  | _, [] => true
  | [], _ :: _ => false
  | h :: hs, n => charsPre n (h :: hs) || charsContains hs n

/-- JS `hay.includes(needle)`. -/
def jsIncludes (hay needle : String) : Bool :=
  charsContains hay.toList needle.toList

/-- JS `hay.startsWith(needle)`. -/
def jsStartsWith (hay needle : String) : Bool :=
  charsPre needle.toList hay.toList

/-- JS `hay.endsWith(needle)`. -/
def jsEndsWith (hay needle : String) : Bool :=
  charsPre needle.toList.reverse hay.toList.reverse

/-- Best-effort integer parse modelling `Number(string)`: trimmed empty
string is `0`, optionally signed digit strings parse, anything else is `NaN`
(`none`). -/
def parseJsNumber (s : String) : Option Int :=
  match trimChars s.toList with
  | [] => some 0
  | '-' :: rest => (digitsToNat rest).map (fun n => -(n : Int))
  | '+' :: rest => (digitsToNat rest).map (fun n => (n : Int))
  | t => (digitsToNat t).map (fun n => (n : Int))

/-- `Number(v)` coercion; `none` stands for `NaN`. -/
def jsToNumber : JsValue → Option Int
  | .vNum n => some n
  | .vBool b => some (if b then 1 else 0)
  | .vNull => some 0
  | .vUndefined => none
  | .vStr s => parseJsNumber s
  | .vArr l => parseJsNumber (jsToString (.vArr l))

/-- Numeric comparison of two coerced values; any `NaN` side compares false
(as in JS). -/
def jsNumCmp (op : Int → Int → Bool) (a b : JsValue) : Bool :=
  match jsToNumber a, jsToNumber b with
  | some x, some y => op x y
  | _, _ => false

/-- The filter operators of `table.types.ts` (`FilterOperator`). -/
inductive FilterOperator where
  | equals | notEquals | contains | notContains
  | startsWith | endsWith
  | greaterThan | lessThan | greaterThanOrEqual | lessThanOrEqual
  | between | inList
deriving DecidableEq

/-- `FilterConfig`: one active filter entry. -/
structure FilterConfig where
  key : String
  value : JsValue
  operator : FilterOperator

/-- `applyFilterToRow` (filtering feature): evaluates one filter entry
against one row, operator by operator as in the source `switch`. -/
def applyFilterToRow (row : Row) (filter : FilterConfig) : Bool :=
  let value := getField row filter.key
  let filterValue := filter.value
  match filter.operator with
  | .equals => jsToLower (jsToString value) = jsToLower (jsToString filterValue)
  | .notEquals => !(jsToLower (jsToString value) = jsToLower (jsToString filterValue) : Bool)
  | .contains => jsIncludes (jsToLower (jsToString value)) (jsToLower (jsToString filterValue))
  | .notContains => !(jsIncludes (jsToLower (jsToString value)) (jsToLower (jsToString filterValue)))
  | .startsWith => jsStartsWith (jsToLower (jsToString value)) (jsToLower (jsToString filterValue))
  | .endsWith => jsEndsWith (jsToLower (jsToString value)) (jsToLower (jsToString filterValue))
  | .greaterThan => jsNumCmp (fun x y => x > y) value filterValue
  | .lessThan => jsNumCmp (fun x y => x < y) value filterValue
  | .greaterThanOrEqual => jsNumCmp (fun x y => x ≥ y) value filterValue
  | .lessThanOrEqual => jsNumCmp (fun x y => x ≤ y) value filterValue
  | .between =>
    match filterValue with
    | .vArr [lo, hi] =>
      jsNumCmp (fun x y => x ≥ y) value lo && jsNumCmp (fun x y => x ≤ y) value hi
    | _ => true
  | .inList =>
    match filterValue with
    | .vArr l => l.any (fun v => jsToLower (jsToString value) = jsToLower (jsToString v))
    | _ => true

/-- `applyFiltering` (filtering feature): with no active filters the data is
returned unchanged, otherwise rows failing any active filter are dropped. -/
def applyFiltering (data : List Row) (activeFilters : List FilterConfig) : List Row :=
  if activeFilters.isEmpty then data
  else data.filter (fun row => activeFilters.all (fun f => applyFilterToRow row f))

/-- `SortDirection` (`'asc' | 'desc' | null`). -/
inductive SortDirection where
  | asc | desc | nullDir
deriving DecidableEq

/-- `SortConfig`: one active sort entry with its multi-sort priority. -/
structure SortConfig where
  key : String
  direction : SortDirection
  order : Int

/-- `FrozenPosition` (`'left' | 'right'`). -/
inductive FrozenPosition where
  | left | right
deriving DecidableEq

/-- `ColumnConfig` (`table.types.ts`), restricted to the fields the embedded
operations read. Optional fields are `Option`; `sortComparator` is the
optional custom comparator receiving both rows and the requested direction. -/
structure ColumnConfig where
  key : String
  title : String := ""
  order : Int := 0
  width : Option Nat := none
  sortable : Option Bool := none
  filterable : Option Bool := none
  frozen : Option Bool := none
  frozenPosition : Option FrozenPosition := none
  visible : Option Bool := none
  sortComparator : Option (Row → Row → SortDirection → Int) := none
  isComputed : Option Bool := none

/-- JS strict equality `===` on the modelled values: structural on
primitives; arrays are reference-compared, and two separately built arrays
are never identical (modelled as `false`). -/
def jsStrictEq : JsValue → JsValue → Bool
  | .vStr a, .vStr b => a = b
  | .vNum a, .vNum b => a = b
  | .vBool a, .vBool b => a = b
  | .vNull, .vNull => true
  | .vUndefined, .vUndefined => true
  | _, _ => false

/-- Whether a value is `null` or `undefined`. -/
def isNullish : JsValue → Bool
  | .vNull => true
  | .vUndefined => true
  | _ => false

/-- Lexicographic codepoint comparison of character lists. -/
def charsLt : List Char → List Char → Bool
  | [], [] => false
  | [], _ :: _ => true
  | _ :: _, [] => false
  | a :: as, b :: bs => if a < b then true else if b < a then false else charsLt as bs

/-- Three-way codepoint string comparison standing in for
`String.prototype.localeCompare` (sign is all the sort consumer uses). -/
def compareStrings (x y : String) : Int :=
  if charsLt x.toList y.toList then -1 else if x = y then 0 else 1

/-- `defaultCompare` (column utilities): equal values compare `0`;
`null`/`undefined` sorts after anything; numbers arithmetically; otherwise
string comparison. (The `Date instanceof` branch is not modelled: the value
model carries no date objects.) -/
def defaultCompare (a b : JsValue) : Int :=
  if jsStrictEq a b then 0
  else if isNullish a then 1
  else if isNullish b then -1
  else
    match a, b with
    | .vNum x, .vNum y => x - y
    | _, _ => compareStrings (jsToString a) (jsToString b)

/-- Insert into a sorted list, keeping the new element before the first
element it compares `le` with (the placement a stable comparison sort gives). -/
def sortInsert (le : α → α → Bool) (x : α) : List α → List α
  | [] => [x]
  | y :: ys => if le x y then x :: y :: ys else y :: sortInsert le x ys

/-- Stable comparison sort modelling `Array.prototype.sort(cmp)` (stable per
the ECMAScript spec); `le a b` means `cmp(a, b) <= 0`. -/
def stableSort (le : α → α → Bool) : List α → List α
  | [] => []
  | x :: xs => sortInsert le x (stableSort le xs)

/-- The active sorts rearranged by ascending `order`
(`activeSorts.sort((x, y) => x.order - y.order)`). -/
def sortsByOrder (activeSorts : List SortConfig) : List SortConfig :=
  stableSort (fun x y => x.order ≤ y.order) activeSorts

/-- The comparison one active sort entry contributes inside `applySorting`
before the direction flip: the column's custom comparator when the column is
found and has one, else the default comparator on the raw fields under the
sort key. -/
def rawEntryComparison (columns : List ColumnConfig) (dc : JsValue → JsValue → Int)
    (sort : SortConfig) (a b : Row) : Int :=
  match (columns.find? (fun c => c.key = sort.key)).bind (fun c => c.sortComparator) with
  | some comparator => comparator a b sort.direction
  | none => dc (getField a sort.key) (getField b sort.key)

/-- One active sort entry's comparison after `applySorting`'s direction flip
(`if (sort.direction === 'desc') comparison *= -1`). -/
def entryComparison (columns : List ColumnConfig) (dc : JsValue → JsValue → Int)
    (sort : SortConfig) (a b : Row) : Int :=
  let comparison := rawEntryComparison columns dc sort a b
  if sort.direction = .desc then -comparison else comparison

/-- The row comparator built by `applySorting`: active sort entries in
ascending `order` until one compares non-zero. -/
def sortComparison (columns : List ColumnConfig) (dc : JsValue → JsValue → Int)
    (sorts : List SortConfig) (a b : Row) : Int :=
  match sorts with
  | [] => 0
  | s :: rest =>
    let c := entryComparison columns dc s a b
    if c ≠ 0 then c else sortComparison columns dc rest a b

/-- `applySorting` (sorting feature): identity when no sort is active, else a
stable sort of a copy of the data by `sortComparison` over the
priority-ordered active sorts. -/
def applySorting (data : List Row) (activeSorts : List SortConfig)
    (columns : List ColumnConfig) (dc : JsValue → JsValue → Int) : List Row :=
  if activeSorts.isEmpty then data
  else stableSort
    (fun a b => sortComparison columns dc (sortsByOrder activeSorts) a b ≤ 0) data

/-- `PaginationState`: the two pagination signals. -/
structure PaginationState where
  currentPage : Int := 1
  pageSize : Int := 10

/-- Index clamping of `Array.prototype.slice`: negative indices count from
the end, indices beyond the length clamp to it. -/
def jsSliceIdx (len : Nat) (i : Int) : Nat :=
  if i < 0 then ((len : Int) + i).toNat else min i.toNat len

/-- `Array.prototype.slice(s, e)`. -/
def jsSlice (l : List α) (s e : Int) : List α :=
  (l.take (jsSliceIdx l.length e)).drop (jsSliceIdx l.length s)

/-- `applyPagination` (pagination feature): identity when disabled, else the
slice `[(currentPage-1)*pageSize, currentPage*pageSize)`. -/
def applyPagination (data : List Row) (st : PaginationState) (enablePagination : Bool) :
    List Row :=
  if !enablePagination then data
  else
    jsSlice data ((st.currentPage - 1) * st.pageSize)
      ((st.currentPage - 1) * st.pageSize + st.pageSize)

/-- `Math.ceil(a / b)` for naturals. -/
def ceilDivNat (a b : Nat) : Nat := (a + b - 1) / b

/-- `computeTotalPages`: `Math.ceil(totalItems / pageSize)`. -/
def computeTotalPages (totalItems pageSize : Nat) : Nat :=
  ceilDivNat totalItems pageSize

/-- `PageChangeEvent`. -/
structure PageChangeEvent where
  page : Int
  pageSize : Int
deriving DecidableEq

/-- The argument of `goToPage` (`page: number | string`). -/
inductive PageArg where
  | num (p : Int)
  | str (s : String)

/-- `goToPage` (pagination feature): string pages and pages outside
`[1, totalPages]` are rejected without touching the state or emitting; a
valid page is stored and a page-change event emitted. The returned pair is
(new state, emitted event). -/
def goToPage (page : PageArg) (st : PaginationState) (totalItems : Nat) :
    PaginationState × Option PageChangeEvent :=
  match page with
  | .str _ => (st, none)
  | .num p =>
    let totalPages := computeTotalPages totalItems st.pageSize.toNat
    if p < 1 ∨ p > (totalPages : Int) then (st, none)
    else ({ st with currentPage := p }, some ⟨p, st.pageSize⟩)

/-- `VirtualScrollConfig` as built by `getVirtualScrollConfig`. -/
structure VirtualScrollConfig where
  enabled : Bool
  itemHeight : Nat
  bufferSize : Nat
  containerHeight : Nat

/-- `VirtualScrollData`: the windower's output record. -/
structure VirtualScrollData where
  visibleData : List Row
  startIndex : Nat
  endIndex : Nat
  offsetY : Nat
  totalHeight : Nat

/-- `computeVirtualScrollData` (virtual-scroll feature). Disabled: identity
over the already-paginated rows. Enabled: the `startIndex`/`visibleCount`/
`endIndex` window cut out of `data` (the argument `table.ts` feeds with the
sorted, pre-pagination sequence). Natural subtraction renders the source's
`Math.max(0, ...)`. -/
def computeVirtualScrollData (data paginatedData : List Row) (scrollTop : Nat)
    (config : VirtualScrollConfig) : VirtualScrollData :=
  if !config.enabled then
    { visibleData := paginatedData
      startIndex := 0
      endIndex := paginatedData.length
      offsetY := 0
      totalHeight := paginatedData.length * config.itemHeight }
  else
    let startIndex := scrollTop / config.itemHeight - config.bufferSize
    let visibleCount := ceilDivNat config.containerHeight config.itemHeight +
      config.bufferSize * 2
    let endIndex := min data.length (startIndex + visibleCount)
    { visibleData := (data.take endIndex).drop startIndex
      startIndex := startIndex
      endIndex := endIndex
      offsetY := startIndex * config.itemHeight
      totalHeight := data.length * config.itemHeight }

/-- `selectionMode` (`'single' | 'multiple'`). -/
inductive SelectionMode where
  | single | multiple
deriving DecidableEq

/-- The merged `TableConfig` (defaults already spread in), restricted to the
fields the embedded operations read. -/
structure TableConfig where
  enableRowSelection : Bool := true
  showSelectionCheckbox : Bool := true
  selectionMode : SelectionMode := .multiple
  rowKeyField : String := "id"
  enablePagination : Bool := true

/-- `config.rowKeyField || 'id'`: the blank string is falsy and also falls
back to `id`. -/
def keyFieldOf (config : TableConfig) : String :=
  if config.rowKeyField = "" then "id" else config.rowKeyField

/-- JS `Set.add` semantics on the insertion-ordered element list. -/
def setAdd (s : List JsValue) (k : JsValue) : List JsValue :=
  if s.contains k then s else s ++ [k]

/-- JS `Set.delete` semantics. -/
def setDelete (s : List JsValue) (k : JsValue) : List JsValue :=
  s.filter (fun x => !(x == k))

/-- `toggleRowSelection` (selection feature): gated on `enableRowSelection`;
in `single` mode the set is cleared and at most the clicked key kept, in
`multiple` mode the clicked key is toggled. -/
def toggleRowSelection (row : Row) (selected : List JsValue) (config : TableConfig) :
    List JsValue :=
  if !config.enableRowSelection then selected
  else
    let key := getField row (keyFieldOf config)
    if config.selectionMode = .single then
      if selected.contains key then [] else [key]
    else
      if selected.contains key then setDelete selected key else setAdd selected key

/-- `toggleAllSelection` (selection feature): removes or adds the key of
every row of the current page; the source checks neither
`enableRowSelection` nor `selectionMode`. -/
def toggleAllSelection (allSelected : Bool) (paginatedData : List Row)
    (selected : List JsValue) (config : TableConfig) : List JsValue :=
  let kf := keyFieldOf config
  if allSelected then
    paginatedData.foldl (fun s r => setDelete s (getField r kf)) selected
  else
    paginatedData.foldl (fun s r => setAdd s (getField r kf)) selected

/-- `clearSelection` (selection feature): replaces the set with a fresh
empty one. -/
def clearSelection (_selected : List JsValue) : List JsValue := []

/-- JS `Map.set` semantics on an insertion-ordered entry list: update in
place when the key exists, else append. -/
def mapSet (eq : κ → κ → Bool) (m : List (κ × String)) (k : κ) (v : String) :
    List (κ × String) :=
  if m.any (fun p => eq p.1 k) then
    m.map (fun p => if eq p.1 k then (p.1, v) else p)
  else m ++ [(k, v)]

/-- JS `Map.delete` semantics. -/
def mapDelete (eq : κ → κ → Bool) (m : List (κ × String)) (k : κ) : List (κ × String) :=
  m.filter (fun p => !eq p.1 k)

/-- JS `Map.get` semantics (`none` for a missing key). -/
def mapGet (eq : κ → κ → Bool) (m : List (κ × String)) (k : κ) : Option String :=
  (m.find? (fun p => eq p.1 k)).map (fun p => p.2)

/-- `ColoringState`: the three color maps (the picker context is UI state
the resolution never reads). -/
structure ColoringState where
  rowColors : List (JsValue × String) := []
  columnColors : List (String × String) := []
  cellColors : List (String × String) := []

/-- `createColoringState`: all maps start empty. -/
def createColoringState : ColoringState := {}

/-- `setRowColor` (coloring feature): a truthy (non-empty) color is stored,
a falsy one deletes the entry. -/
def setRowColor (st : ColoringState) (rowKey : JsValue) (color : String) : ColoringState :=
  if color ≠ "" then { st with rowColors := mapSet jsBeq st.rowColors rowKey color }
  else { st with rowColors := mapDelete jsBeq st.rowColors rowKey }

/-- `getRowColor`: `map.get(rowKey) || ''`. -/
def getRowColor (st : ColoringState) (rowKey : JsValue) : String :=
  (mapGet jsBeq st.rowColors rowKey).getD ""

/-- `setColumnColor` (coloring feature). -/
def setColumnColor (st : ColoringState) (columnKey : String) (color : String) :
    ColoringState :=
  if color ≠ "" then { st with columnColors := mapSet (· = ·) st.columnColors columnKey color }
  else { st with columnColors := mapDelete (· = ·) st.columnColors columnKey }

/-- `getColumnColor`. -/
def getColumnColor (st : ColoringState) (columnKey : String) : String :=
  (mapGet (· = ·) st.columnColors columnKey).getD ""

/-- `getCellKey`: the template string `` `${rowKey}:${columnKey}` ``. -/
def getCellKey (rowKey : JsValue) (columnKey : String) : String :=
  jsToString rowKey ++ ":" ++ columnKey

/-- `setCellColor` (coloring feature). -/
def setCellColor (st : ColoringState) (rowKey : JsValue) (columnKey : String)
    (color : String) : ColoringState :=
  let key := getCellKey rowKey columnKey
  if color ≠ "" then { st with cellColors := mapSet (· = ·) st.cellColors key color }
  else { st with cellColors := mapDelete (· = ·) st.cellColors key }

/-- `getCellColor`. -/
def getCellColor (st : ColoringState) (rowKey : JsValue) (columnKey : String) : String :=
  (mapGet (· = ·) st.cellColors (getCellKey rowKey columnKey)).getD ""

/-- `getResolvedCellColor` (coloring feature): cell > row > column, first
truthy color wins, else the empty string. -/
def getResolvedCellColor (st : ColoringState) (rowKey : JsValue) (columnKey : String) :
    String :=
  let cellColor := getCellColor st rowKey columnKey
  if cellColor ≠ "" then cellColor
  else
    let rowColor := getRowColor st rowKey
    if rowColor ≠ "" then rowColor
    else
      let columnColor := getColumnColor st columnKey
      if columnColor ≠ "" then columnColor
      else ""

/-- `clearAllColors`: clears the three maps. -/
def clearAllColors (_st : ColoringState) : ColoringState := {}

/-- `ConditionOperator` (computed-columns feature). -/
inductive ConditionOperator where
  | equals | notEquals | contains | notContains
  | greaterThan | lessThan | greaterThanOrEqual | lessThanOrEqual
  | isEmpty | isNotEmpty
deriving DecidableEq

/-- `ColumnCondition`: one conditional rule of a computed column. -/
structure ColumnCondition where
  id : String := ""
  sourceColumn : String
  operator : ConditionOperator
  compareValue : String
  thenValue : String
  elseValue : String := ""

/-- `ComputedColumnDefinition`. -/
structure ComputedColumnDefinition where
  key : String
  title : String := ""
  conditions : List ColumnCondition
  defaultValue : String

/-- `evaluateCondition` (computed-columns feature): the operator `switch`
over the row's source-column value. -/
def evaluateCondition (row : Row) (condition : ColumnCondition) : Bool :=
  let sourceValue := getField row condition.sourceColumn
  let compareValue := condition.compareValue
  match condition.operator with
  | .equals => jsToLower (jsToString sourceValue) = jsToLower compareValue
  | .notEquals => !(jsToLower (jsToString sourceValue) = jsToLower compareValue : Bool)
  | .contains => jsIncludes (jsToLower (jsToString sourceValue)) (jsToLower compareValue)
  | .notContains => !(jsIncludes (jsToLower (jsToString sourceValue)) (jsToLower compareValue))
  | .greaterThan => jsNumCmp (fun x y => x > y) sourceValue (.vStr compareValue)
  | .lessThan => jsNumCmp (fun x y => x < y) sourceValue (.vStr compareValue)
  | .greaterThanOrEqual => jsNumCmp (fun x y => x ≥ y) sourceValue (.vStr compareValue)
  | .lessThanOrEqual => jsNumCmp (fun x y => x ≤ y) sourceValue (.vStr compareValue)
  | .isEmpty => isNullish sourceValue || jsStrictEq sourceValue (.vStr "")
  | .isNotEmpty => !(isNullish sourceValue || jsStrictEq sourceValue (.vStr ""))

/-- `computeColumnValue` (computed-columns feature): the `thenValue` of the
first matching condition, else `defaultValue || conditions[0]?.elseValue || ''`. -/
def computeColumnValue (row : Row) (columnDef : ComputedColumnDefinition) : String :=
  match columnDef.conditions.find? (fun c => evaluateCondition row c) with
  | some condition => condition.thenValue
  | none =>
    if columnDef.defaultValue ≠ "" then columnDef.defaultValue
    else
      match columnDef.conditions.head? with
      | some c => if c.elseValue ≠ "" then c.elseValue else ""
      | none => ""

/-- The effective pixel width `column.width || 150` (0 is falsy). -/
def effWidth (c : ColumnConfig) : Nat :=
  match c.width with
  | some w => if w = 0 then 150 else w
  | none => 150

/-- JS `Array.prototype.findIndex`: first matching index or `-1`. -/
def jsFindIndex (p : α → Bool) : List α → Int
  | [] => -1
  | x :: xs =>
    if p x then 0
    else if jsFindIndex p xs = -1 then -1 else jsFindIndex p xs + 1

/-- `getFrozenLeftOffset` (column utilities), as the numeric pixel offset:
the reserved 48px checkbox width when row selection with a checkbox is on,
plus the widths of the frozen-left columns before this one. -/
def getFrozenLeftOffsetN (column : ColumnConfig) (frozenLeftColumns : List ColumnConfig)
    (config : TableConfig) : Nat :=
  let index := jsFindIndex (fun c => c.key = column.key) frozenLeftColumns
  let checkbox : Nat := if config.enableRowSelection && config.showSelectionCheckbox then 48 else 0
  checkbox + (((frozenLeftColumns.take index.toNat).map effWidth).sum)

/-- `getFrozenLeftOffset`'s actual string result. -/
def getFrozenLeftOffset (column : ColumnConfig) (frozenLeftColumns : List ColumnConfig)
    (config : TableConfig) : String :=
  toString (getFrozenLeftOffsetN column frozenLeftColumns config) ++ "px"

/-- `getFrozenRightOffset` (column utilities), as the numeric pixel offset:
the widths of the frozen-right columns after this one. -/
def getFrozenRightOffsetN (column : ColumnConfig) (frozenRightColumns : List ColumnConfig) :
    Nat :=
  let index := jsFindIndex (fun c => c.key = column.key) frozenRightColumns
  ((frozenRightColumns.drop (index + 1).toNat).map effWidth).sum

/-- `getFrozenRightOffset`'s actual string result. -/
def getFrozenRightOffset (column : ColumnConfig) (frozenRightColumns : List ColumnConfig) :
    String :=
  toString (getFrozenRightOffsetN column frozenRightColumns) ++ "px"

/-- `filteredData` (`table.ts`): the filter stage over the raw rows. -/
def filteredData (data : List Row) (filters : List FilterConfig) : List Row :=
  applyFiltering data filters

/-- `sortedData` (`table.ts`): the sort stage over the filtered rows
(`table.ts` passes the base `columns()` input and `defaultCompare`). -/
def sortedData (data : List Row) (filters : List FilterConfig)
    (sorts : List SortConfig) (columns : List ColumnConfig) : List Row :=
  applySorting (filteredData data filters) sorts columns defaultCompare

/-- `paginatedData` (`table.ts`): the pagination stage over the sorted rows. -/
def paginatedData (data : List Row) (filters : List FilterConfig)
    (sorts : List SortConfig) (columns : List ColumnConfig)
    (pag : PaginationState) (enablePagination : Bool) : List Row :=
  applyPagination (sortedData data filters sorts columns) pag enablePagination

/-- `virtualScrollData` (`table.ts`): the windower fed with the sorted
sequence as `data` and the paginated sequence as `paginatedData`. -/
def virtualScrollData (data : List Row) (filters : List FilterConfig)
    (sorts : List SortConfig) (columns : List ColumnConfig)
    (pag : PaginationState) (enablePagination : Bool)
    (scrollTop : Nat) (vsConfig : VirtualScrollConfig) : VirtualScrollData :=
  computeVirtualScrollData
    (sortedData data filters sorts columns)
    (paginatedData data filters sorts columns pag enablePagination)
    scrollTop vsConfig

/-- "`a` is a contiguous slice of `b`": some drop-then-take of `b`. -/
def sliceOf (a b : List Row) : Prop :=
  ∃ i j, a = (b.drop i).take j

/-! Helper lemmas shared by the claim theorems. -/

theorem sliceOf_refl (l : List Row) : sliceOf l l :=
  ⟨0, l.length, by simp⟩

theorem sliceOf_length_le {a b : List Row} (h : sliceOf a b) : a.length ≤ b.length := by
  obtain ⟨i, j, rfl⟩ := h
  simp only [List.length_take, List.length_drop]
  omega

theorem sliceOf_mem {a b : List Row} (h : sliceOf a b) {r : Row} (hr : r ∈ a) : r ∈ b := by
  obtain ⟨i, j, rfl⟩ := h
  exact List.mem_of_mem_drop (List.mem_of_mem_take hr)

theorem sliceOf_trans {a b c : List Row} (hab : sliceOf a b) (hbc : sliceOf b c) :
    sliceOf a c := by
  obtain ⟨i, j, rfl⟩ := hab
  obtain ⟨i', j', rfl⟩ := hbc
  refine ⟨i' + i, min j (j' - i), ?_⟩
  rw [List.drop_take, List.drop_drop, List.take_take]

theorem jsSlice_eq_drop_take (l : List Row) (s e : Int) :
    jsSlice l s e =
      (l.drop (jsSliceIdx l.length s)).take (jsSliceIdx l.length e - jsSliceIdx l.length s) := by
  rw [jsSlice, List.drop_take]

theorem applyFiltering_eq_filter (data : List Row) (activeFilters : List FilterConfig) :
    applyFiltering data activeFilters =
      data.filter (fun row => activeFilters.all (fun f => applyFilterToRow row f)) := by
  rw [applyFiltering]
  match activeFilters with
  | [] => simp
  | _ :: _ => rfl

theorem applyFiltering_sublist (data : List Row) (activeFilters : List FilterConfig) :
    (applyFiltering data activeFilters).Sublist data := by
  rw [applyFiltering_eq_filter]; exact List.filter_sublist data

theorem mem_applyFiltering {data : List Row} {activeFilters : List FilterConfig} {r : Row} :
    r ∈ applyFiltering data activeFilters ↔
      r ∈ data ∧ ∀ f ∈ activeFilters, applyFilterToRow r f = true := by
  rw [applyFiltering_eq_filter, List.mem_filter, List.all_eq_true]

theorem sortInsert_perm (le : α → α → Bool) (x : α) (l : List α) :
    (sortInsert le x l).Perm (x :: l) := by
  induction l with
  | nil => rfl
  | cons y ys ih =>
    rw [sortInsert]
    by_cases h : le x y = true
    · simp [h]
    · simp only [h, if_false, Bool.false_eq_true]
      exact ((List.perm_cons y).mpr ih).trans (List.Perm.swap x y ys)

theorem stableSort_perm (le : α → α → Bool) (l : List α) :
    (stableSort le l).Perm l := by
  induction l with
  | nil => rfl
  | cons x xs ih =>
    rw [stableSort]
    exact (sortInsert_perm le x (stableSort le xs)).trans ((List.perm_cons x).mpr ih)

theorem applySorting_perm (data : List Row) (activeSorts : List SortConfig)
    (columns : List ColumnConfig) (dc : JsValue → JsValue → Int) :
    (applySorting data activeSorts columns dc).Perm data := by
  rw [applySorting]
  by_cases h : activeSorts.isEmpty
  · simp [h]
  · simp only [h, if_neg]
    exact stableSort_perm _ data

theorem mem_applySorting {data : List Row} {activeSorts : List SortConfig}
    {columns : List ColumnConfig} {dc : JsValue → JsValue → Int} {r : Row} :
    r ∈ applySorting data activeSorts columns dc ↔ r ∈ data :=
  (applySorting_perm data activeSorts columns dc).mem_iff

/-- C7: `applyFiltering` is an order-preserving subsequence filter — the
output is a sublist of the input (hence no longer than it), a row is kept
exactly when it lies in the input and every active filter's predicate holds
on it (conjunction over the entries), and with no active filters the input
is returned unchanged. -/
theorem C7_applyFiltering_subsequence (data : List Row) (activeFilters : List FilterConfig) :
    (applyFiltering data activeFilters).Sublist data ∧
    (applyFiltering data activeFilters).length ≤ data.length ∧
    (∀ r, r ∈ applyFiltering data activeFilters ↔
      r ∈ data ∧ ∀ f ∈ activeFilters, applyFilterToRow r f = true) ∧
    applyFiltering data [] = data := by
  refine ⟨applyFiltering_sublist data activeFilters,
    (applyFiltering_sublist data activeFilters).length_le,
    fun r => mem_applyFiltering, ?_⟩
  rw [applyFiltering]; rfl

/-- Concrete row used by several witnesses. -/
def rowAlice : Row := [("name", JsValue.vStr "Alice")]

/-- Concrete row used by several witnesses. -/
def rowBob : Row := [("name", JsValue.vStr "Bob")]

/-- Concrete `contains` filter on the name column. -/
def filterAli : FilterConfig := ⟨"name", JsValue.vStr "ali", FilterOperator.contains⟩

/-- Witness for C7 at a concrete two-row dataset and one `contains` filter:
the output is a subsequence and the matching row is a member. -/
theorem C7_applyFiltering_subsequence_witness :
    (applyFiltering [rowAlice, rowBob] [filterAli]).Sublist [rowAlice, rowBob] ∧
    rowAlice ∈ applyFiltering [rowAlice, rowBob] [filterAli] := by
  have h := C7_applyFiltering_subsequence [rowAlice, rowBob] [filterAli]
  refine ⟨h.1, (h.2.2.1 rowAlice).mpr ⟨List.mem_cons_self _ _, ?_⟩⟩
  intro f hf
  rw [List.mem_singleton] at hf
  subst hf
  rfl

/-- C6: `goToPage` is a no-op — state unchanged, no page-change event —
whenever the requested page lies outside `[1, totalPages]` with
`totalPages = ceil(totalItems / pageSize)` (0 with no items); in particular
with 25 items and page size 10, `totalPages = 3` and page 4 is rejected. -/
theorem C6_goToPage_rejects_out_of_range :
    (∀ (p : Int) (st : PaginationState) (totalItems : Nat),
        p < 1 ∨ p > (computeTotalPages totalItems st.pageSize.toNat : Int) →
        goToPage (.num p) st totalItems = (st, none)) ∧
    (∀ pageSize, computeTotalPages 0 pageSize = 0) ∧
    computeTotalPages 25 10 = 3 ∧
    goToPage (.num 4) ⟨1, 10⟩ 25 = (⟨1, 10⟩, none) ∧
    goToPage (.num 0) ⟨2, 10⟩ 25 = (⟨2, 10⟩, none) := by
  refine ⟨?_, ?_, rfl, rfl, rfl⟩
  · intro p st totalItems h
    rw [goToPage]
    simp only [if_pos h]
  · intro pageSize
    match pageSize with
    | 0 => rfl
    | n + 1 =>
      show (0 + (n + 1) - 1) / (n + 1) = 0
      rw [Nat.div_eq_of_lt (by omega)]

/-- Witness for C6: page 4 of 25 items at size 10 is rejected through the
general no-op clause. -/
theorem C6_goToPage_rejects_out_of_range_witness :
    goToPage (.num 4) ⟨1, 10⟩ 25 = (⟨1, 10⟩, none) :=
  C6_goToPage_rejects_out_of_range.1 4 ⟨1, 10⟩ 25 (by right; decide)

set_option maxRecDepth 10000

/-- C5: with virtual scrolling enabled, `computeVirtualScrollData` realizes
`startIndex = max(0, floor(scrollTop/itemHeight) - bufferSize)`,
`endIndex = min(totalRows, startIndex + (ceil(containerHeight/itemHeight) +
2*bufferSize))`, `offsetY = startIndex*itemHeight` and
`totalHeight = totalRows*itemHeight`, the visible rows being exactly that
window of its `data` argument; disabled, it is the identity over the
already-paginated rows with `startIndex = 0` and `endIndex = length`. At
`itemHeight=48, buffer=5, containerHeight=600, scrollTop=960,
totalRows=1000` it yields `startIndex=15`, `visibleCount=23`, `endIndex=38`. -/
theorem C5_computeVirtualScrollData_window (data paginated : List Row) (scrollTop : Nat)
    (config : VirtualScrollConfig) :
    (config.enabled = true →
      ((computeVirtualScrollData data paginated scrollTop config).startIndex : Int) =
        max 0 (((scrollTop / config.itemHeight : Nat) : Int) - (config.bufferSize : Int)) ∧
      (computeVirtualScrollData data paginated scrollTop config).endIndex =
        min data.length
          ((computeVirtualScrollData data paginated scrollTop config).startIndex +
            (ceilDivNat config.containerHeight config.itemHeight + 2 * config.bufferSize)) ∧
      (computeVirtualScrollData data paginated scrollTop config).offsetY =
        (computeVirtualScrollData data paginated scrollTop config).startIndex *
          config.itemHeight ∧
      (computeVirtualScrollData data paginated scrollTop config).totalHeight =
        data.length * config.itemHeight ∧
      (computeVirtualScrollData data paginated scrollTop config).visibleData =
        (data.drop (computeVirtualScrollData data paginated scrollTop config).startIndex).take
          ((computeVirtualScrollData data paginated scrollTop config).endIndex -
            (computeVirtualScrollData data paginated scrollTop config).startIndex)) ∧
    (config.enabled = false →
      (computeVirtualScrollData data paginated scrollTop config).visibleData = paginated ∧
      (computeVirtualScrollData data paginated scrollTop config).startIndex = 0 ∧
      (computeVirtualScrollData data paginated scrollTop config).endIndex =
        paginated.length ∧
      (computeVirtualScrollData data paginated scrollTop config).offsetY = 0) ∧
    (computeVirtualScrollData (List.replicate 1000 ([] : Row)) [] 960
        ⟨true, 48, 5, 600⟩).startIndex = 15 ∧
    ceilDivNat 600 48 + 2 * 5 = 23 ∧
    (computeVirtualScrollData (List.replicate 1000 ([] : Row)) [] 960
        ⟨true, 48, 5, 600⟩).endIndex = 38 := by
  refine ⟨?_, ?_, ?_, ?_, ?_⟩
  · intro h
    simp only [computeVirtualScrollData, h, Bool.not_true, Bool.false_eq_true, if_false]
    refine ⟨by omega, by omega, ?_, ?_, ?_⟩ <;> first
      | trivial
      | rw [List.drop_take]
  · intro h
    simp [computeVirtualScrollData, h]
  · rfl
  · rfl
  · rfl

/-- Witness for C5 at the spec's concrete scenario (enabled) and a disabled
configuration. -/
theorem C5_computeVirtualScrollData_window_witness :
    ((computeVirtualScrollData (List.replicate 1000 ([] : Row)) [] 960
        ⟨true, 48, 5, 600⟩).startIndex : Int) =
      max 0 (((960 / 48 : Nat) : Int) - (5 : Int)) ∧
    (computeVirtualScrollData [rowAlice] [rowAlice, rowBob] 0
        ⟨false, 48, 5, 600⟩).visibleData = [rowAlice, rowBob] := by
  constructor
  · exact ((C5_computeVirtualScrollData_window (List.replicate 1000 ([] : Row)) [] 960
      ⟨true, 48, 5, 600⟩).1 rfl).1
  · exact ((C5_computeVirtualScrollData_window [rowAlice] [rowAlice, rowBob] 0
      ⟨false, 48, 5, 600⟩).2.1 rfl).1

theorem applyPagination_sliceOf (data : List Row) (pag : PaginationState) (en : Bool) :
    sliceOf (applyPagination data pag en) data := by
  rw [applyPagination]
  by_cases h : en
  · simp only [h, Bool.not_true, Bool.false_eq_true, if_false]
    rw [jsSlice_eq_drop_take]
    exact ⟨_, _, rfl⟩
  · simp only [Bool.not_eq_true] at h
    simp only [h, Bool.not_false, if_true]
    exact sliceOf_refl data

theorem computeVirtualScrollData_visible_sliceOf (data paginated : List Row)
    (scrollTop : Nat) (config : VirtualScrollConfig) (hp : sliceOf paginated data) :
    sliceOf (computeVirtualScrollData data paginated scrollTop config).visibleData data := by
  rw [computeVirtualScrollData]
  by_cases h : config.enabled
  · simp only [h, Bool.not_true, Bool.false_eq_true, if_false]
    rw [List.drop_take]
    exact ⟨_, _, rfl⟩
  · simp only [Bool.not_eq_true] at h
    simp only [h, Bool.not_false, if_true]
    exact hp

/-- C1 (amended): filtering, sorting and pagination are applied in that
order — the paginated rows are a contiguous slice of the sorted-filtered
sequence — and every windowed row comes from the filtered (hence raw) data
and passes every active filter. The windower, however, slices the
*filtered-and-sorted* sequence: only when virtualization is disabled is its
output the paginated page itself (and with pagination disabled the slice
relation to the paginated sequence also holds), so with both pagination and
virtualization enabled the window bypasses pagination. -/
theorem C1_pipeline_stage_order (data : List Row) (filters : List FilterConfig)
    (sorts : List SortConfig) (columns : List ColumnConfig) (pag : PaginationState)
    (enablePagination : Bool) (scrollTop : Nat) (vsConfig : VirtualScrollConfig) :
    sliceOf (paginatedData data filters sorts columns pag enablePagination)
      (sortedData data filters sorts columns) ∧
    sliceOf
      (virtualScrollData data filters sorts columns pag enablePagination scrollTop
        vsConfig).visibleData
      (sortedData data filters sorts columns) ∧
    (vsConfig.enabled = false →
      (virtualScrollData data filters sorts columns pag enablePagination scrollTop
        vsConfig).visibleData =
        paginatedData data filters sorts columns pag enablePagination) ∧
    (enablePagination = false →
      sliceOf
        (virtualScrollData data filters sorts columns pag enablePagination scrollTop
          vsConfig).visibleData
        (paginatedData data filters sorts columns pag enablePagination)) ∧
    (∀ r ∈ (virtualScrollData data filters sorts columns pag enablePagination scrollTop
        vsConfig).visibleData,
      r ∈ data ∧ ∀ f ∈ filters, applyFilterToRow r f = true) := by
  have hpag : sliceOf (paginatedData data filters sorts columns pag enablePagination)
      (sortedData data filters sorts columns) :=
    applyPagination_sliceOf _ pag enablePagination
  have hvis : sliceOf
      (virtualScrollData data filters sorts columns pag enablePagination scrollTop
        vsConfig).visibleData
      (sortedData data filters sorts columns) :=
    computeVirtualScrollData_visible_sliceOf _ _ scrollTop vsConfig hpag
  refine ⟨hpag, hvis, ?_, ?_, ?_⟩
  · intro h
    rw [virtualScrollData, computeVirtualScrollData]
    simp [h]
  · intro h
    have hid : paginatedData data filters sorts columns pag enablePagination =
        sortedData data filters sorts columns := by
      rw [paginatedData, applyPagination, h]
      simp
    rw [hid]
    exact hvis
  · intro r hr
    have hs : r ∈ sortedData data filters sorts columns := sliceOf_mem hvis hr
    have hf : r ∈ filteredData data filters := mem_applySorting.mp hs
    have := mem_applyFiltering.mp hf
    exact this

/-- Twenty-five distinct one-field rows. -/
def rows25 : List Row := (List.range 25).map (fun i => [("id", JsValue.vNum i)])

/-- Counterexample to C1 as stated: with pagination enabled (page 1, size
10) *and* virtual scrolling enabled (item height 48, buffer 5, container
600, scroll 0) over 25 rows, the windower renders 23 rows — it slices the
sorted-filtered sequence, not the 10-row paginated page, so its visible
rows are not a slice of the already-paginated sequence. -/
theorem C1_counterexample :
    ¬ sliceOf
      (virtualScrollData rows25 [] [] [] ⟨1, 10⟩ true 0 ⟨true, 48, 5, 600⟩).visibleData
      (paginatedData rows25 [] [] [] ⟨1, 10⟩ true) := by
  intro h
  have hlen := sliceOf_length_le h
  have h1 : (virtualScrollData rows25 [] [] [] ⟨1, 10⟩ true 0
      ⟨true, 48, 5, 600⟩).visibleData.length = 23 := rfl
  have h2 : (paginatedData rows25 [] [] [] ⟨1, 10⟩ true).length = 10 := rfl
  omega

/-- Witness for C1 (amended) at concrete inputs: with virtualization
disabled the window is exactly the paginated page, and the page is a slice
of the sorted sequence. -/
theorem C1_pipeline_stage_order_witness :
    (virtualScrollData rows25 [] [] [] ⟨1, 10⟩ true 0 ⟨false, 48, 5, 600⟩).visibleData =
      paginatedData rows25 [] [] [] ⟨1, 10⟩ true ∧
    sliceOf (paginatedData rows25 [] [] [] ⟨1, 10⟩ true) (sortedData rows25 [] [] []) := by
  have h := C1_pipeline_stage_order rows25 [] [] [] ⟨1, 10⟩ true 0 ⟨false, 48, 5, 600⟩
  exact ⟨h.2.2.1 rfl, h.1⟩

/-- The per-entry sort comparison as the spec words it: a custom
comparator's result is used as-is (the comparator is responsible for the
direction) and only the default comparator's result is negated externally on
`desc`. Second, clearly named definition following the spec's words, to be
compared with `entryComparison` from the code. -/
def specEntryComparison (columns : List ColumnConfig) (dc : JsValue → JsValue → Int)
    (sort : SortConfig) (a b : Row) : Int :=
  match (columns.find? (fun c => c.key = sort.key)).bind (fun c => c.sortComparator) with
  | some comparator => comparator a b sort.direction
  | none =>
    let c := dc (getField a sort.key) (getField b sort.key)
    if sort.direction = .desc then -c else c

/-- Column whose custom comparator constantly answers 1. -/
def colConstCmp : ColumnConfig := { key := "a", sortComparator := some (fun _ _ _ => 1) }

/-- Descending sort entry on that column. -/
def descSortA : SortConfig := ⟨"a", .desc, 1⟩

/-- Column whose custom comparator is direction-agnostic: it always compares
the `n` fields ascending with the default comparator. -/
def colCmpByN : ColumnConfig :=
  { key := "n", sortComparator := some (fun a b _ => defaultCompare (getField a "n") (getField b "n")) }

/-- Concrete one-field numeric row. -/
def rowN1 : Row := [("n", JsValue.vNum 1)]

/-- Concrete one-field numeric row. -/
def rowN2 : Row := [("n", JsValue.vNum 2)]

/-- Counterexample to C2 as stated: on a descending entry whose column has a
custom comparator returning 1, `applySorting`'s per-entry comparison is -1 —
the external `comparison *= -1` of the source applies to the custom
comparator's result too, where the claim says that result is used as-is
(which `specEntryComparison` renders, giving 1). Through the public
function: a direction-agnostic custom comparator that orders `n` ascending
gets its result flipped on `desc`, reversing the rows. -/
theorem C2_counterexample :
    entryComparison [colConstCmp] defaultCompare descSortA [] [] = -1 ∧
    specEntryComparison [colConstCmp] defaultCompare descSortA [] [] = 1 ∧
    entryComparison [colConstCmp] defaultCompare descSortA [] [] ≠
      specEntryComparison [colConstCmp] defaultCompare descSortA [] [] ∧
    applySorting [rowN1, rowN2] [⟨"n", .desc, 1⟩] [colCmpByN] defaultCompare =
      [rowN2, rowN1] := by
  exact ⟨rfl, rfl, by decide, rfl⟩

/-- C2 (amended): in `applySorting`, a column's custom comparator does
receive the row pair plus the requested direction, but its result is *also*
negated externally when the direction is `desc`, exactly as the default
comparator's result is. -/
theorem C2_desc_negation_applies_to_custom (columns : List ColumnConfig)
    (dc : JsValue → JsValue → Int) (sort : SortConfig) (a b : Row) :
    (∀ f, (columns.find? (fun c => c.key = sort.key)).bind (fun c => c.sortComparator) =
        some f →
      entryComparison columns dc sort a b =
        if sort.direction = .desc then -(f a b sort.direction) else f a b sort.direction) ∧
    ((columns.find? (fun c => c.key = sort.key)).bind (fun c => c.sortComparator) = none →
      entryComparison columns dc sort a b =
        if sort.direction = .desc then -(dc (getField a sort.key) (getField b sort.key))
        else dc (getField a sort.key) (getField b sort.key)) := by
  constructor
  · intro f hf
    rw [entryComparison, rawEntryComparison, hf]
  · intro hf
    rw [entryComparison, rawEntryComparison, hf]

/-- Witness for C2 (amended) at the concrete constant comparator (custom
branch) and a comparator-free column (default branch). -/
theorem C2_desc_negation_applies_to_custom_witness :
    entryComparison [colConstCmp] defaultCompare descSortA [] [] =
      (if descSortA.direction = .desc then -((fun _ _ _ => (1 : Int)) ([] : Row) ([] : Row)
        descSortA.direction) else (fun _ _ _ => (1 : Int)) ([] : Row) ([] : Row)
        descSortA.direction) ∧
    entryComparison [] defaultCompare descSortA rowN1 rowN2 =
      (if descSortA.direction = .desc then
        -(defaultCompare (getField rowN1 descSortA.key) (getField rowN2 descSortA.key))
      else defaultCompare (getField rowN1 descSortA.key) (getField rowN2 descSortA.key)) := by
  constructor
  · exact (C2_desc_negation_applies_to_custom [colConstCmp] defaultCompare descSortA
      [] []).1 (fun _ _ _ => 1) rfl
  · exact (C2_desc_negation_applies_to_custom [] defaultCompare descSortA rowN1 rowN2).2 rfl

/-- `computedColumnToColumnConfig` (computed-columns feature): the
synthesized ordinary column — sortable/filterable, `isComputed = true`, and
no custom comparator attached (the source also sets `resizable` and
`cellType`, fields outside the modelled subset). -/
def computedColumnToColumnConfig (computedCol : ComputedColumnDefinition) (order : Int) :
    ColumnConfig :=
  { key := computedCol.key
    title := computedCol.title
    order := order
    width := some 150
    sortable := some true
    filterable := some true
    isComputed := some true }

/-- Concrete computed column: status `equals` "true" gives "Active", default
"Inactive". -/
def ccStatusLabel : ComputedColumnDefinition :=
  ⟨"computed_1", "Status Label", [⟨"c1", "status", .equals, "true", "Active", ""⟩],
    "Inactive"⟩

/-- Row whose status is `true`. -/
def rowStatusTrue : Row := [("id", JsValue.vNum 2), ("status", JsValue.vBool true)]

/-- Row whose status is `false`. -/
def rowStatusFalse : Row := [("id", JsValue.vNum 1), ("status", JsValue.vBool false)]

/-- The base columns `table.ts` hands to `applySorting`. -/
def baseColumnsC3 : List ColumnConfig := [{ key := "id" }, { key := "status" }]

/-- C3 fails on the code (code bug): both engines read the raw field under a
computed column's key, which is `undefined` on every row, instead of the
computed value. Filtering the computed column for "active" rejects the row
whose computed value is "Active"; sorting on the computed key compares
`undefined` with `undefined`, so every pair ties and `applySorting` leaves
the rows untouched even though the computed values order them differently —
both with the synthesized computed column config and with the base columns
`table.ts` actually passes. -/
theorem C3_sort_filter_use_raw_fields :
    computeColumnValue rowStatusTrue ccStatusLabel = "Active" ∧
    computeColumnValue rowStatusFalse ccStatusLabel = "Inactive" ∧
    applyFilterToRow rowStatusTrue ⟨"computed_1", .vStr "active", .contains⟩ = false ∧
    jsIncludes (jsToLower (computeColumnValue rowStatusTrue ccStatusLabel))
      (jsToLower "active") = true ∧
    getField rowStatusTrue "computed_1" = .vUndefined ∧
    sortComparison [computedColumnToColumnConfig ccStatusLabel 2] defaultCompare
      [⟨"computed_1", .asc, 1⟩] rowStatusTrue rowStatusFalse = 0 ∧
    compareStrings (computeColumnValue rowStatusTrue ccStatusLabel)
      (computeColumnValue rowStatusFalse ccStatusLabel) ≠ 0 ∧
    applySorting [rowStatusFalse, rowStatusTrue] [⟨"computed_1", .asc, 1⟩]
      baseColumnsC3 defaultCompare = [rowStatusFalse, rowStatusTrue] := by
  exact ⟨rfl, rfl, rfl, rfl, rfl, rfl, by decide, rfl⟩

/-- Single-selection-mode configuration. -/
def cfgSingle : TableConfig := { selectionMode := .single }

/-- Concrete keyed row. -/
def rowId1 : Row := [("id", JsValue.vNum 1)]

/-- Concrete keyed row. -/
def rowId2 : Row := [("id", JsValue.vNum 2)]

/-- Counterexample to C4 as stated: under `single` mode,
`toggleAllSelection` (which never consults `selectionMode`) on a two-row
page grows the empty selection — whose size satisfies the bound — to two
keys, violating size ≤ 1. -/
theorem C4_counterexample :
    cfgSingle.selectionMode = SelectionMode.single ∧
    (toggleAllSelection false [rowId1, rowId2] [] cfgSingle).length = 2 ∧
    ¬ (toggleAllSelection false [rowId1, rowId2] [] cfgSingle).length ≤ 1 := by
  refine ⟨rfl, rfl, ?_⟩
  intro hle
  have h : (toggleAllSelection false [rowId1, rowId2] [] cfgSingle).length = 2 := rfl
  omega

/-- C4 (amended): under `single` mode, `toggleRowSelection` preserves the
size ≤ 1 bound (and establishes it outright whenever row selection is
enabled) and `clearSelection` empties the set; `toggleAllSelection` ignores
the selection mode and does not respect the bound. -/
theorem C4_single_mode_bound (row : Row) (selected : List JsValue) (config : TableConfig)
    (hmode : config.selectionMode = .single) :
    (selected.length ≤ 1 → (toggleRowSelection row selected config).length ≤ 1) ∧
    (config.enableRowSelection = true → (toggleRowSelection row selected config).length ≤ 1) ∧
    (clearSelection selected).length = 0 := by
  refine ⟨?_, ?_, rfl⟩
  · intro hsel
    rw [toggleRowSelection]
    by_cases he : config.enableRowSelection
    · simp only [he, Bool.not_true, Bool.false_eq_true, if_false, hmode, if_pos rfl]
      by_cases hc : selected.contains (getField row (keyFieldOf config)) <;> simp [hc]
    · simp only [Bool.not_eq_true] at he
      simp only [he, Bool.not_false, if_true]
      exact hsel
  · intro he
    rw [toggleRowSelection]
    simp only [he, Bool.not_true, Bool.false_eq_true, if_false, hmode, if_pos rfl]
    by_cases hc : selected.contains (getField row (keyFieldOf config)) <;> simp [hc]

/-- Witness for C4 (amended) at a concrete single-mode toggle and clear. -/
theorem C4_single_mode_bound_witness :
    (toggleRowSelection rowId1 [] cfgSingle).length ≤ 1 ∧
    (clearSelection [JsValue.vNum 1]).length = 0 := by
  have h := C4_single_mode_bound rowId1 [] cfgSingle rfl
  exact ⟨h.1 (by simp), h.2.2⟩

theorem jsFindIndex_eq_of_first (p : α → Bool) :
    ∀ (l : List α) (i : Nat) (hi : i < l.length),
      p (l.get ⟨i, hi⟩) = true →
      (∀ j (hj : j < i), p (l.get ⟨j, hj.trans hi⟩) = false) →
      jsFindIndex p l = (i : Int) := by
  intro l
  induction l with
  | nil => intro i hi; simp at hi
  | cons x xs ih =>
    intro i hi hp hfirst
    match i with
    | 0 =>
      simp only [List.get] at hp
      simp [jsFindIndex, hp]
    | i + 1 =>
      have hx : p x = false := hfirst 0 (Nat.succ_pos i)
      have hi' : i < xs.length := Nat.lt_of_succ_lt_succ hi
      have hrec : jsFindIndex p xs = (i : Int) :=
        ih i hi' hp (fun j hj => hfirst (j + 1) (Nat.succ_lt_succ hj))
      rw [jsFindIndex, hx, hrec]
      have hne : ((i : Nat) : Int) ≠ -1 := by omega
      simp only [Bool.false_eq_true, if_false, hne, if_neg]
      push_cast
      ring

theorem find?_eq_of_first (p : α → Bool) :
    ∀ (l : List α) (i : Nat) (hi : i < l.length),
      p (l.get ⟨i, hi⟩) = true →
      (∀ j (hj : j < i), p (l.get ⟨j, hj.trans hi⟩) = false) →
      l.find? p = some (l.get ⟨i, hi⟩) := by
  intro l
  induction l with
  | nil => intro i hi; simp at hi
  | cons x xs ih =>
    intro i hi hp hfirst
    match i with
    | 0 =>
      simp only [List.get] at hp ⊢
      rw [List.find?_cons, hp]
    | i + 1 =>
      have hx : p x = false := hfirst 0 (Nat.succ_pos i)
      rw [List.find?_cons, hx]
      have hi' : i < xs.length := Nat.lt_of_succ_lt_succ hi
      exact ih i hi' hp (fun j hj => hfirst (j + 1) (Nat.succ_lt_succ hj))

/-- C8: a frozen-left column's pixel offset is the reserved 48px — when row
selection with a selection checkbox is enabled — plus the sum of the
(effective) widths of the frozen-left columns before its position; a
frozen-right column's offset is the sum of the widths of the frozen-right
columns after its position. The position hypothesis says the column sits at
index `i` of its frozen group and no earlier group member reuses its key. -/
theorem C8_frozen_offsets :
    (∀ (cols : List ColumnConfig) (config : TableConfig) (i : Nat) (hi : i < cols.length),
      (∀ j (hj : j < i), (cols.get ⟨j, hj.trans hi⟩).key ≠ (cols.get ⟨i, hi⟩).key) →
      getFrozenLeftOffsetN (cols.get ⟨i, hi⟩) cols config =
        (if config.enableRowSelection && config.showSelectionCheckbox then 48 else 0) +
          ((cols.take i).map effWidth).sum) ∧
    (∀ (cols : List ColumnConfig) (i : Nat) (hi : i < cols.length),
      (∀ j (hj : j < i), (cols.get ⟨j, hj.trans hi⟩).key ≠ (cols.get ⟨i, hi⟩).key) →
      getFrozenRightOffsetN (cols.get ⟨i, hi⟩) cols =
        ((cols.drop (i + 1)).map effWidth).sum) := by
  constructor
  · intro cols config i hi hfirst
    have hfind : jsFindIndex (fun c => c.key = (cols.get ⟨i, hi⟩).key) cols = (i : Int) :=
      jsFindIndex_eq_of_first _ cols i hi (by simp)
        (fun j hj => by
          have hne := hfirst j hj
          simp only [List.get_eq_getElem] at hne
          simp [hne])
    rw [getFrozenLeftOffsetN, hfind]
    simp
  · intro cols i hi hfirst
    have hfind : jsFindIndex (fun c => c.key = (cols.get ⟨i, hi⟩).key) cols = (i : Int) :=
      jsFindIndex_eq_of_first _ cols i hi (by simp)
        (fun j hj => by
          have hne := hfirst j hj
          simp only [List.get_eq_getElem] at hne
          simp [hne])
    rw [getFrozenRightOffsetN, hfind]
    have h1 : ((i : Int) + 1).toNat = i + 1 := by omega
    rw [h1]

/-- Frozen column with an explicit 100px width. -/
def colA : ColumnConfig := { key := "a", width := some 100 }

/-- Frozen column with an explicit 120px width. -/
def colB : ColumnConfig := { key := "b", width := some 120 }

/-- Frozen column with no width (effective 150px). -/
def colC : ColumnConfig := { key := "c" }

/-- Witness for C8: the middle column of a three-column frozen group, under
the default config (checkbox enabled). -/
theorem C8_frozen_offsets_witness :
    getFrozenLeftOffsetN colB [colA, colB, colC] {} =
      (if ({} : TableConfig).enableRowSelection && ({} : TableConfig).showSelectionCheckbox
        then 48 else 0) +
        ((([colA, colB, colC] : List ColumnConfig).take 1).map effWidth).sum ∧
    getFrozenRightOffsetN colB [colA, colB, colC] =
      ((([colA, colB, colC] : List ColumnConfig).drop 2).map effWidth).sum ∧
    getFrozenLeftOffset colB [colA, colB, colC] {} = "148px" ∧
    getFrozenRightOffset colB [colA, colB, colC] = "150px" := by
  have hi : (1 : Nat) < ([colA, colB, colC] : List ColumnConfig).length := by decide
  have hfirst : ∀ j (hj : j < 1),
      (([colA, colB, colC] : List ColumnConfig).get ⟨j, hj.trans hi⟩).key ≠
        (([colA, colB, colC] : List ColumnConfig).get ⟨1, hi⟩).key := by
    intro j hj
    have hj0 : j = 0 := by omega
    subst hj0
    show ("a" : String) ≠ "b"
    decide
  refine ⟨?_, ?_, rfl, rfl⟩
  · exact C8_frozen_offsets.1 [colA, colB, colC] {} 1 hi hfirst
  · exact C8_frozen_offsets.2 [colA, colB, colC] 1 hi hfirst

/-- C9: `computeColumnValue` returns the `thenValue` of the first condition
(in list order) holding on the row; when none holds it returns
`defaultValue`, falling back to the first condition's `elseValue` when
`defaultValue` is empty (empty when there is none). On the concrete
status-equals-"true" column with default "Inactive": a row with status
`true` yields "Active" through string-coerced comparison, and any row whose
string-coerced status is not "true" yields "Inactive". -/
theorem C9_computeColumnValue_first_match :
    (∀ (row : Row) (cd : ComputedColumnDefinition) (i : Nat) (hi : i < cd.conditions.length),
      evaluateCondition row (cd.conditions.get ⟨i, hi⟩) = true →
      (∀ j (hj : j < i), evaluateCondition row (cd.conditions.get ⟨j, hj.trans hi⟩) = false) →
      computeColumnValue row cd = (cd.conditions.get ⟨i, hi⟩).thenValue) ∧
    (∀ (row : Row) (cd : ComputedColumnDefinition),
      (∀ c ∈ cd.conditions, evaluateCondition row c = false) →
      computeColumnValue row cd =
        if cd.defaultValue ≠ "" then cd.defaultValue
        else
          match cd.conditions.head? with
          | some c => c.elseValue
          | none => "") ∧
    computeColumnValue rowStatusTrue ccStatusLabel = "Active" ∧
    computeColumnValue rowStatusFalse ccStatusLabel = "Inactive" ∧
    (∀ row : Row, jsToLower (jsToString (getField row "status")) ≠ "true" →
      computeColumnValue row ccStatusLabel = "Inactive") := by
  refine ⟨?_, ?_, rfl, rfl, ?_⟩
  · intro row cd i hi hp hfirst
    rw [computeColumnValue, find?_eq_of_first _ cd.conditions i hi hp hfirst]
  · intro row cd hnone
    rw [computeColumnValue]
    have hfind : cd.conditions.find? (fun c => evaluateCondition row c) = none := by
      rw [List.find?_eq_none]
      intro c hc
      simp [hnone c hc]
    rw [hfind]
    by_cases hd : cd.defaultValue ≠ ""
    · simp [hd]
    · simp only [hd, if_false]
      match cd.conditions.head? with
      | some c =>
        by_cases he : c.elseValue ≠ ""
        · simp [he]
        · simp only [ne_eq, Decidable.not_not] at he
          simp [he]
      | none => rfl
  · intro row hrow
    have hcond : evaluateCondition row ⟨"c1", "status", .equals, "true", "Active", ""⟩
        = false := by
      simp only [evaluateCondition]
      simpa using hrow
    rw [computeColumnValue]
    have hfind : ccStatusLabel.conditions.find? (fun c => evaluateCondition row c)
        = none := by
      rw [List.find?_eq_none]
      intro c hc
      rw [ccStatusLabel] at hc
      rw [List.mem_singleton] at hc
      subst hc
      simp [hcond]
    rw [hfind]
    rfl

/-- Witness for C9: the first-match clause at the concrete status column and
matching row, and the no-match clause at a row lacking the status field. -/
theorem C9_computeColumnValue_first_match_witness :
    computeColumnValue rowStatusTrue ccStatusLabel =
      (ccStatusLabel.conditions.get ⟨0, by decide⟩).thenValue ∧
    computeColumnValue rowId1 ccStatusLabel = "Inactive" := by
  constructor
  · exact C9_computeColumnValue_first_match.1 rowStatusTrue ccStatusLabel 0 (by decide)
      rfl (fun j hj => absurd hj (by omega))
  · exact C9_computeColumnValue_first_match.2.2.2.2 rowId1 (by decide)

theorem mem_mapSet {eq : κ → κ → Bool} {m : List (κ × String)} {k : κ} {v : String}
    {p : κ × String} (hp : p ∈ mapSet eq m k v) : p ∈ m ∨ p.2 = v := by
  rw [mapSet] at hp
  by_cases h : m.any (fun q => eq q.1 k)
  · simp only [h, if_true] at hp
    obtain ⟨q, hq, hqe⟩ := List.mem_map.mp hp
    by_cases he : eq q.1 k
    · simp only [he, if_true] at hqe
      right
      rw [← hqe]
    · simp only [he, Bool.false_eq_true, if_false] at hqe
      left
      rw [← hqe]
      exact hq
  · simp only [h, Bool.false_eq_true, if_false, List.mem_append, List.mem_singleton] at hp
    rcases hp with hp | hp
    · exact Or.inl hp
    · right
      rw [hp]

theorem mem_mapDelete (eq : κ → κ → Bool) (m : List (κ × String)) (k : κ)
    {p : κ × String} (hp : p ∈ mapDelete eq m k) : p ∈ m :=
  List.mem_of_mem_filter hp

theorem mapGet_some {eq : κ → κ → Bool} {m : List (κ × String)} {k : κ} {v : String}
    (h : mapGet eq m k = some v) : ∃ p ∈ m, p.2 = v := by
  rw [mapGet] at h
  match hf : m.find? (fun p => eq p.1 k) with
  | none => rw [hf] at h; exact absurd h (by simp)
  | some q =>
    rw [hf] at h
    simp at h
    exact ⟨q, List.mem_of_find?_eq_some hf, h⟩

/-- Invariant: no entry of any of the three color maps carries the empty
string as its color. -/
def NoEmptyColors (st : ColoringState) : Prop :=
  (∀ p ∈ st.rowColors, p.2 ≠ "") ∧ (∀ p ∈ st.columnColors, p.2 ≠ "") ∧
    (∀ p ∈ st.cellColors, p.2 ≠ "")

/-- C10: the initial coloring state and every coloring operation keep the
no-empty-color invariant — setting the empty string deletes the entry
instead of storing it — and under the invariant the resolver answers the
empty string exactly when the cell, row and column lookups all miss, and
otherwise the first present assignment in cell > row > column priority. -/
theorem C10_coloring_invariant_resolution :
    NoEmptyColors createColoringState ∧
    (∀ st k color, NoEmptyColors st → NoEmptyColors (setRowColor st k color)) ∧
    (∀ st k color, NoEmptyColors st → NoEmptyColors (setColumnColor st k color)) ∧
    (∀ st rk ck color, NoEmptyColors st → NoEmptyColors (setCellColor st rk ck color)) ∧
    (∀ st, NoEmptyColors (clearAllColors st)) ∧
    (∀ st rk ck, NoEmptyColors st →
      (getCellColor st rk ck = "" ↔
        mapGet (fun a b => a = b) st.cellColors (getCellKey rk ck) = none) ∧
      (getRowColor st rk = "" ↔ mapGet jsBeq st.rowColors rk = none) ∧
      (getColumnColor st ck = "" ↔ mapGet (fun a b => a = b) st.columnColors ck = none) ∧
      (getResolvedCellColor st rk ck = "" ↔
        getCellColor st rk ck = "" ∧ getRowColor st rk = "" ∧ getColumnColor st ck = "") ∧
      (getCellColor st rk ck ≠ "" →
        getResolvedCellColor st rk ck = getCellColor st rk ck) ∧
      (getCellColor st rk ck = "" → getRowColor st rk ≠ "" →
        getResolvedCellColor st rk ck = getRowColor st rk) ∧
      (getCellColor st rk ck = "" → getRowColor st rk = "" →
        getResolvedCellColor st rk ck = getColumnColor st ck)) := by
  have hgetter : ∀ (κ : Type) (eq : κ → κ → Bool) (m : List (κ × String)) (k : κ),
      (∀ p ∈ m, p.2 ≠ "") → ((mapGet eq m k).getD "" = "" ↔ mapGet eq m k = none) := by
    intro κ eq m k hm
    match hf : mapGet eq m k with
    | none => simp
    | some v =>
      obtain ⟨p, hp, hpv⟩ := mapGet_some hf
      have := hm p hp
      simp only [Option.getD_some]
      constructor
      · intro hv; exact absurd (hpv.trans hv) this
      · intro hv; exact absurd hv (by simp)
  refine ⟨⟨fun p hp => absurd hp (List.not_mem_nil p),
      fun p hp => absurd hp (List.not_mem_nil p),
      fun p hp => absurd hp (List.not_mem_nil p)⟩, ?_, ?_, ?_, ?_, ?_⟩
  · intro st k color ⟨hr, hc, hce⟩
    rw [setRowColor]
    by_cases h : color ≠ ""
    · rw [if_pos h]
      refine ⟨?_, hc, hce⟩
      intro p hp
      rcases mem_mapSet hp with hm | hv
      · exact hr p hm
      · rw [hv]; exact h
    · rw [if_neg h]
      exact ⟨fun p hp => hr p (mem_mapDelete jsBeq st.rowColors k hp), hc, hce⟩
  · intro st k color ⟨hr, hc, hce⟩
    rw [setColumnColor]
    by_cases h : color ≠ ""
    · rw [if_pos h]
      refine ⟨hr, ?_, hce⟩
      intro p hp
      have hp2 : p ∈ mapSet (fun a b => a = b) st.columnColors k color := hp
      rcases mem_mapSet hp2 with hm | hv
      · exact hc p hm
      · rw [hv]; exact h
    · rw [if_neg h]
      exact ⟨hr, fun p hp => hc p (mem_mapDelete (fun a b => a = b) st.columnColors k hp),
        hce⟩
  · intro st rk ck color ⟨hr, hc, hce⟩
    rw [setCellColor]
    by_cases h : color ≠ ""
    · rw [if_pos h]
      refine ⟨hr, hc, ?_⟩
      intro p hp
      have hp2 : p ∈ mapSet (fun a b => a = b) st.cellColors (getCellKey rk ck) color := hp
      rcases mem_mapSet hp2 with hm | hv
      · exact hce p hm
      · rw [hv]; exact h
    · rw [if_neg h]
      exact ⟨hr, hc,
        fun p hp => hce p
          (mem_mapDelete (fun a b => a = b) st.cellColors (getCellKey rk ck) hp)⟩
  · intro st
    exact ⟨fun p hp => absurd hp (List.not_mem_nil p),
      fun p hp => absurd hp (List.not_mem_nil p),
      fun p hp => absurd hp (List.not_mem_nil p)⟩
  · intro st rk ck ⟨hr, hc, hce⟩
    have hcell := hgetter String (fun a b => a = b) st.cellColors (getCellKey rk ck) hce
    have hrow := hgetter JsValue jsBeq st.rowColors rk hr
    have hcol := hgetter String (fun a b => a = b) st.columnColors ck hc
    refine ⟨hcell, hrow, hcol, ?_, ?_, ?_, ?_⟩
    · rw [getResolvedCellColor]
      by_cases h1 : getCellColor st rk ck = ""
      · by_cases h2 : getRowColor st rk = ""
        · by_cases h3 : getColumnColor st ck = "" <;> simp [h1, h2, h3]
        · simp [h1, h2]
      · simp [h1]
    · intro h1
      rw [getResolvedCellColor]
      simp [h1]
    · intro h1 h2
      rw [getResolvedCellColor]
      simp [h1, h2]
    · intro h1 h2
      rw [getResolvedCellColor]
      by_cases h3 : getColumnColor st ck = "" <;> simp [h1, h2, h3]

/-- Witness for C10: a column color for `colX` plus a cell color for
`(1, colX)` keep the invariant, `(1, colX)` resolves to the cell color and
`(2, colX)` to the column color. -/
theorem C10_coloring_invariant_resolution_witness :
    NoEmptyColors
      (setCellColor (setColumnColor createColoringState "colX" "#abc")
        (.vNum 1) "colX" "#def") ∧
    getResolvedCellColor
      (setCellColor (setColumnColor createColoringState "colX" "#abc")
        (.vNum 1) "colX" "#def") (.vNum 1) "colX" = "#def" ∧
    getResolvedCellColor
      (setCellColor (setColumnColor createColoringState "colX" "#abc")
        (.vNum 1) "colX" "#def") (.vNum 2) "colX" = "#abc" := by
  have h := C10_coloring_invariant_resolution
  have hinv : NoEmptyColors
      (setCellColor (setColumnColor createColoringState "colX" "#abc")
        (.vNum 1) "colX" "#def") :=
    h.2.2.2.1 _ (.vNum 1) "colX" "#def" (h.2.2.1 createColoringState "colX" "#abc" h.1)
  refine ⟨hinv, ?_, ?_⟩
  · have hres := (h.2.2.2.2.2 _ (.vNum 1) "colX" hinv).2.2.2.2.1 (by decide)
    rw [hres]
    rfl
  · have hres := (h.2.2.2.2.2 _ (.vNum 2) "colX" hinv).2.2.2.2.2.2 (by decide) (by decide)
    rw [hres]
    rfl

end ModernTable
